import Mathlib

/-!
Verification development for the billede-spil image-remix backend.

The TypeScript source is shallowly embedded: JavaScript strings are lists of
characters, JavaScript metadata values (string | string[] | null | undefined)
are the inductive type JVal, JSON values returned by JSON.parse are the
inductive type JsonV, and the HTTP handlers become pure functions from a
request body and an oracle of external-service results to a response paired
with the trace of external calls they attempt.  Rational numbers stand in for
the JavaScript floating-point remix-strength scalar (all comparisons in the
source are against short decimal literals far apart relative to double
precision, so the order of the embedded rationals and of the doubles agree).
-/

/-- A JavaScript string, embedded as its list of characters. -/
abbrev JsStr := List Char

/-- Conversion from a Lean string literal to the embedded string type. -/
def S (s : String) : JsStr := s.data

/-- Characters treated as whitespace by the embedded String.prototype.trim and
by the JSON parser (the ASCII subset of the ECMAScript WhiteSpace and
LineTerminator classes; the metadata the program handles is ASCII). -/
def isWs (c : Char) : Bool :=
  c = ' ' || c = '\t' || c = '\n' || c = '\r' || c = '\x0b' || c = '\x0c'

/-- Leading-whitespace removal, one half of String.prototype.trim. -/
def trimL (s : JsStr) : JsStr := s.dropWhile isWs

/-- Trailing-whitespace removal, the other half of String.prototype.trim. -/
def trimR (s : JsStr) : JsStr := (s.reverse.dropWhile isWs).reverse

/-- Model of JavaScript String.prototype.trim. -/
def trim (s : JsStr) : JsStr := trimR (trimL s)

/-- Model of JavaScript String.prototype.split with a one-character separator:
splitChar c s is the list of maximal c-free segments of s; the empty string
splits into one empty segment, as in JavaScript. -/
def splitChar (c : Char) : JsStr → List JsStr
  | [] => [[]]
  | x :: xs =>
    match splitChar c xs with
    | [] => [[x]]
    | y :: ys => if x = c then [] :: y :: ys else (x :: y) :: ys

/-- Model of JavaScript Array.prototype.join with separator sep. -/
def joinSep (sep : JsStr) : List JsStr → JsStr
  | [] => []
  | [e] => e
  | e :: r => e ++ sep ++ joinSep sep r

/-- Array.prototype.join with a bare comma, the rendering used by the
idempotence property of List Coercion. -/
def joinComma : List JsStr → JsStr := joinSep [',']

/-- Array.prototype.join with a comma and a space, used by the prompt
renderer for the must-include and avoid clauses. -/
def joinCS : List JsStr → JsStr := joinSep (S ", ")

/-- Array.prototype.join with a single space, used to flatten the prompt
clause list. -/
def joinSpace : List JsStr → JsStr := joinSep [' ']

/-- Model of String.prototype.toLowerCase on one character (ASCII range; the
tags the program lowercases are ASCII). -/
def toLowerChar (c : Char) : Char :=
  if 'A' ≤ c ∧ c ≤ 'Z' then Char.ofNat (c.toNat + 32) else c

/-- Model of String.prototype.toLowerCase. -/
def toLowerStr (s : JsStr) : JsStr := s.map toLowerChar

/-- Worker for first-seen-order deduplication keyed by an arbitrary function,
the behaviour of inserting key x into a JavaScript Set while pushing x. -/
def dedupByAux (key : JsStr → JsStr) (seen : List JsStr) : List JsStr → List JsStr
  | [] => []
  | x :: xs =>
    if key x ∈ seen then dedupByAux key seen xs
    else x :: dedupByAux key (key x :: seen) xs

/-- First-seen-order deduplication keyed by key; Array.from(new Set(l)) is
dedupBy id l. -/
def dedupBy (key : JsStr → JsStr) (l : List JsStr) : List JsStr :=
  dedupByAux key [] l

/-- A raw metadata value as stored by the provider and typed in the source:
string | string[] | null | undefined. -/
inductive JVal where
  | vStr (s : JsStr)
  | vArr (xs : List JsStr)
  | vNull
  | vUndefined
deriving DecidableEq, Repr

/-- JavaScript truthiness restricted to JVal: null, undefined and the empty
string are falsy; every array (even empty) is truthy. -/
def jsFalsy : JVal → Bool
  | .vNull => true
  | .vUndefined => true
  | .vStr s => s.isEmpty
  | .vArr _ => false

/-- Model of the JavaScript String(v) conversion on raw metadata values:
arrays join their elements with commas, null and undefined print their
names. -/
def jvToString : JVal → JsStr
  | .vStr s => s
  | .vArr xs => joinComma xs
  | .vNull => S "null"
  | .vUndefined => S "undefined"

/-- One metadata container (a context or structured-metadata object of the
storage provider): a key-to-raw-value mapping, embedded as an association
list with distinct keys looked up first-match. -/
abbrev RawContainer := List (JsStr × JVal)

/-- Property lookup obj?.[k]: the stored value, or undefined when the key is
absent. -/
def lookupKey (obj : RawContainer) (k : JsStr) : JVal :=
  match obj.find? (fun kv => kv.1 = k) with
  | some kv => kv.2
  | none => .vUndefined

/-- The pick helper of src/src/app/api/cloudinary/recent/route.ts lines
68-74: iterate candidate keys in order and return the first stored value v
with v !== undefined, v !== null and String(v).trim() !== ""; return null
when no key qualifies.  Note the raw value v is returned, not its trimmed
string conversion. -/
def pick (obj : RawContainer) : List JsStr → JVal
  | [] => .vNull
  | k :: ks =>
    let v := lookupKey obj k
    if v ≠ .vUndefined ∧ v ≠ .vNull ∧ trim (jvToString v) ≠ [] then v
    else pick obj ks

/-- The Field Resolver over an ordered list of containers: the source chains
pick calls with the ?? operator (pick(cx, keys...) ?? pick(md, keys...)), so
the first container whose pick is not null wins. -/
def resolveField (containers : List RawContainer) (keys : List JsStr) : JVal :=
  match containers with
  | [] => .vNull
  | c :: rest =>
    match pick c keys with
    | .vNull => resolveField rest keys
    | v => v

/-- A JSON value as produced by JSON.parse.  Numbers keep their source token
(the metadata and plans the program parses carry canonical decimal tokens,
for which the JavaScript number-to-string round trip is the identity). -/
inductive JsonV where
  | null
  | bool (b : Bool)
  | num (tok : JsStr)
  | str (s : JsStr)
  | arr (elems : List JsonV)
  | obj (fields : List (JsStr × JsonV))

/-- Whitespace skipped between JSON tokens. -/
def skipWsJ (s : JsStr) : JsStr := s.dropWhile isWs

/-- Value of one hexadecimal digit, for the \u escape of JSON strings. -/
def hexVal (c : Char) : Option Nat :=
  if '0' ≤ c ∧ c ≤ '9' then some (c.toNat - 48)
  else if 'a' ≤ c ∧ c ≤ 'f' then some (c.toNat - 87)
  else if 'A' ≤ c ∧ c ≤ 'F' then some (c.toNat - 55)
  else none

/-- Body of a JSON string after the opening quote: the decoded characters and
the rest of the input after the closing quote; none on a malformed string
(unterminated, bad escape, raw control character), where JSON.parse throws. -/
def parseStrBody : JsStr → Option (JsStr × JsStr)
  | [] => none
  | c :: rest =>
    if c = '"' then some ([], rest)
    else if c = '\\' then
      match rest with
      | [] => none
      | e :: rest2 =>
        let simple : Option Char :=
          if e = '"' then some '"'
          else if e = '\\' then some '\\'
          else if e = '/' then some '/'
          else if e = 'n' then some '\n'
          else if e = 't' then some '\t'
          else if e = 'r' then some '\r'
          else if e = 'b' then some '\x08'
          else if e = 'f' then some '\x0c'
          else none
        match simple with
        | some d =>
          match parseStrBody rest2 with
          | some (tl, rem) => some (d :: tl, rem)
          | none => none
        | none =>
          if e = 'u' then
            match rest2 with
            | h1 :: h2 :: h3 :: h4 :: rest6 =>
              match hexVal h1, hexVal h2, hexVal h3, hexVal h4 with
              | some a, some b, some c3, some d4 =>
                match parseStrBody rest6 with
                | some (tl, rem) =>
                  some (Char.ofNat (((a * 16 + b) * 16 + c3) * 16 + d4) :: tl, rem)
                | none => none
              | _, _, _, _ => none
            | _ => none
          else none
    else if c.toNat < 32 then none
    else
      match parseStrBody rest with
      | some (tl, rem) => some (c :: tl, rem)
      | none => none

/-- A JSON number token (sign, integer part without leading zeros, optional
fraction, optional exponent): the token characters and the rest of the
input. -/
def parseNumTok (s : JsStr) : Option (JsStr × JsStr) :=
  let (sign, s1) := match s with
    | '-' :: t => (['-'], t)
    | _ => (([] : JsStr), s)
  let intPart := s1.takeWhile Char.isDigit
  let r1 := s1.dropWhile Char.isDigit
  if intPart = [] then none
  else if intPart.head? = some '0' ∧ intPart.length > 1 then none
  else
    let (fracPart, r2) : JsStr × JsStr :=
      match r1 with
      | '.' :: t =>
        let ds := t.takeWhile Char.isDigit
        if ds = [] then ([], r1) else ('.' :: ds, t.dropWhile Char.isDigit)
      | _ => ([], r1)
    if fracPart = [] ∧ r1.head? = some '.' then none
    else
      let (expPart, r3) : JsStr × JsStr :=
        match r2 with
        | e :: t =>
          if e = 'e' ∨ e = 'E' then
            let (sg, t2) : JsStr × JsStr :=
              match t with
              | '+' :: u => (['+'], u)
              | '-' :: u => (['-'], u)
              | _ => ([], t)
            let ds := t2.takeWhile Char.isDigit
            if ds = [] then ([], r2)
            else (e :: (sg ++ ds), t2.dropWhile Char.isDigit)
          else ([], r2)
        | _ => ([], r2)
      if expPart = [] ∧ (r2.head? = some 'e' ∨ r2.head? = some 'E') then none
      else some (sign ++ intPart ++ fracPart ++ expPart, r3)

mutual

/-- Fueled recursive-descent parser for one JSON value; fuel bounds the
nesting-driven call depth and is chosen large enough for any input of the
given length at the top entry point. -/
def parseV : Nat → JsStr → Option (JsonV × JsStr)
  | 0, _ => none
  | _ + 1, [] => none
  | fuel + 1, c :: rest =>
    if c = '"' then
      match parseStrBody rest with
      | some (s, rem) => some (.str s, rem)
      | none => none
    else if c = '[' then
      match skipWsJ rest with
      | ']' :: rem => some (.arr [], rem)
      | r1 => parseArrItems fuel r1 []
    else if c = '{' then
      match skipWsJ rest with
      | '}' :: rem => some (.obj [], rem)
      | r1 => parseObjItems fuel r1 []
    else if c = 't' then
      match rest with
      | 'r' :: 'u' :: 'e' :: rem => some (.bool true, rem)
      | _ => none
    else if c = 'f' then
      match rest with
      | 'a' :: 'l' :: 's' :: 'e' :: rem => some (.bool false, rem)
      | _ => none
    else if c = 'n' then
      match rest with
      | 'u' :: 'l' :: 'l' :: rem => some (.null, rem)
      | _ => none
    else
      match parseNumTok (c :: rest) with
      | some (tok, rem) => some (.num tok, rem)
      | none => none

/-- Items of a JSON array after the opening bracket (first item pending),
accumulating parsed elements in order. -/
def parseArrItems : Nat → JsStr → List JsonV → Option (JsonV × JsStr)
  | 0, _, _ => none
  | fuel + 1, s, acc =>
    match parseV fuel s with
    | none => none
    | some (v, rem) =>
      match skipWsJ rem with
      | ',' :: rem2 => parseArrItems fuel (skipWsJ rem2) (acc ++ [v])
      | ']' :: rem2 => some (.arr (acc ++ [v]), rem2)
      | _ => none

/-- Members of a JSON object after the opening brace (first member pending),
accumulating key-value pairs in order. -/
def parseObjItems : Nat → JsStr → List (JsStr × JsonV) → Option (JsonV × JsStr)
  | 0, _, _ => none
  | fuel + 1, s, acc =>
    match s with
    | '"' :: rest =>
      match parseStrBody rest with
      | none => none
      | some (k, rem) =>
        match skipWsJ rem with
        | ':' :: rem2 =>
          match parseV fuel (skipWsJ rem2) with
          | none => none
          | some (v, rem3) =>
            match skipWsJ rem3 with
            | ',' :: rem4 =>
              match skipWsJ rem4 with
              | '"' :: _ => parseObjItems fuel (skipWsJ rem4) (acc ++ [(k, v)])
              | _ => none
            | '}' :: rem4 => some (.obj (acc ++ [(k, v)]), rem4)
            | _ => none
        | _ => none
    | _ => none

end

/-- Model of JSON.parse: some value when the whole input is one JSON value,
none when JSON.parse would throw. -/
def jsonParse (s : JsStr) : Option JsonV :=
  match parseV (2 * s.length + 4) (skipWsJ s) with
  | some (v, rem) => if skipWsJ rem = [] then some v else none
  | none => none

mutual

/-- Model of the JavaScript String(v) conversion on JSON values: arrays join
their displayed elements with commas, plain objects print as
[object Object]. -/
def jsDisplay : JsonV → JsStr
  | .null => S "null"
  | .bool true => S "true"
  | .bool false => S "false"
  | .num t => t
  | .str s => s
  | .arr es => jsDisplayList es
  | .obj _ => S "[object Object]"

/-- Comma-joined display of a list of JSON values (Array.prototype.toString). -/
def jsDisplayList : List JsonV → JsStr
  | [] => []
  | [v] => jsDisplay v
  | v :: rest => jsDisplay v ++ ',' :: jsDisplayList rest

end

/-- JavaScript truthiness of a JSON value; a number is falsy exactly when its
mantissa is all zeros. -/
def jsTruthyJ : JsonV → Bool
  | .null => false
  | .bool b => b
  | .str s => !s.isEmpty
  | .arr _ => true
  | .obj _ => true
  | .num t =>
    let mantissa := (t.takeWhile (fun c => c ≠ 'e' ∧ c ≠ 'E')).filter Char.isDigit
    !(mantissa.all (fun c => c = '0'))

/-- Lookup of an object property under JavaScript semantics for duplicate JSON
keys: the last occurrence wins. -/
def lookupLast (fields : List (JsStr × JsonV)) (k : JsStr) : Option JsonV :=
  match fields.reverse.find? (fun kv => kv.1 = k) with
  | some kv => some kv.2
  | none => none

/-- The startsWith/endsWith guard of csvToArr: the trimmed string is
bracket-delimited ([...] or braces), so a JSON parse is attempted. -/
def bracketDelim (s : JsStr) : Bool :=
  (s.head? = some '[' && s.getLast? = some ']') ||
  (s.head? = some '{' && s.getLast? = some '}')

/-- The csvToArr helper of src/src/app/api/cloudinary/recent/route.ts lines
76-103 (the List Coercion component): falsy input gives []; an array maps its
elements to trimmed strings and drops empties; a string is trimmed, then
parsed as JSON when bracket-delimited (keeping a successfully parsed array,
silently falling through otherwise), else split on commas, each branch
trimming entries and dropping empties. -/
def csvToArr (v : JVal) : List JsStr :=
  if jsFalsy v then []
  else
    match v with
    | .vArr xs => (xs.map trim).filter (· ≠ [])
    | _ =>
      let s := trim (jvToString v)
      if s = [] then []
      else if bracketDelim s then
        match jsonParse s with
        | some (.arr es) => ((es.map jsDisplay).map trim).filter (· ≠ [])
        | _ => ((splitChar ',' s).map trim).filter (· ≠ [])
      else ((splitChar ',' s).map trim).filter (· ≠ [])

/-- The dedupLower helper of the upload route (src/unnamed/part_001 lines
15-27): for each entry, the seen-key is the trimmed, lower-cased value; empty
keys are skipped, and the trimmed original-cased first occurrence is kept. -/
def dedupLowerAux (seen : List JsStr) : List JsStr → List JsStr
  | [] => []
  | t :: ts =>
    let k := toLowerStr (trim t)
    if k = [] then dedupLowerAux seen ts
    else if k ∈ seen then dedupLowerAux seen ts
    else trim t :: dedupLowerAux (k :: seen) ts

/-- Entry point of dedupLower with an empty seen-set. -/
def dedupLower (arr : List JsStr) : List JsStr := dedupLowerAux [] arr

/-- The Tag Merger as the source shapes it (src/unnamed/part_001 lines
202-209): dedupLower over the concatenation of the input lists, truncated to
the cap by slice(0, cap); the source instantiates the cap at 40. -/
def mergeTags (lists : List (List JsStr)) (cap : Nat) : List JsStr :=
  (dedupLower lists.flatten).take cap

/-- The mergedTags value of the upload route: the AI tags, vibe, objects and
must-keep lists, then the comma-split caller tags (empty caller tags
contribute nothing), merged with cap 40. -/
def mergedTags (aiTags aiVibe aiObjects aiMustKeep : List JsStr)
    (tags : JsStr) : List JsStr :=
  mergeTags [aiTags, aiVibe, aiObjects, aiMustKeep,
    if tags = [] then [] else splitChar ',' tags] 40

/-- The ParentDescriptor type of the generateImage routes (src/unnamed/
part_002 lines 32-56): every field optional; absent array fields are
distinguished from empty ones by the Array.isArray checks in the source. -/
structure ParentDescriptor where
  title : Option JsStr
  description : Option JsStr
  subject : Option JsStr
  setting : Option JsStr
  medium : Option JsStr
  realism : Option JsStr
  lighting : Option JsStr
  palette : Option JsStr
  composition : Option JsStr
  style : Option JsStr
  vibe : Option (List JsStr)
  objects : Option (List JsStr)
  people : Option (List JsStr)
  trend : Option JsStr
  feeling : Option JsStr
  must_keep : Option (List JsStr)
deriving DecidableEq, Repr

/-- The descriptor with every field absent, the empty-object fallback
p.descriptor || the braces of the source. -/
def emptyDescriptor : ParentDescriptor :=
  ⟨none, none, none, none, none, none, none, none,
   none, none, none, none, none, none, none, none⟩

/-- A descriptor holding only a description, as the legacy route fabricates
from the descriptions field. -/
def descOnly (d : JsStr) : ParentDescriptor :=
  ⟨none, some d, none, none, none, none, none, none,
   none, none, none, none, none, none, none, none⟩

/-- A remix parent: an asset URL and an optional descriptor. -/
structure RemixParent where
  url : JsStr
  descriptor : Option ParentDescriptor
deriving DecidableEq, Repr

/-- The uniq helper of the first generateImage route (src/unnamed/part_002
lines 63-65): trim each entry, drop empties, then Set-deduplicate the trimmed
values exactly (case-sensitively), first occurrence first. -/
def uniq (arr : List JsStr) : List JsStr :=
  dedupBy (fun s => s) ((arr.map trim).filter (· ≠ []))

/-- The uniq helper of the second (legacy) generateImage route (src/unnamed/
part_002 lines 506-507): drop falsy entries first, then trim, then
Set-deduplicate exactly; a whitespace-only entry survives as the empty
string. -/
def uniq2 (arr : List JsStr) : List JsStr :=
  dedupBy (fun s => s) ((arr.filter (· ≠ [])).map trim)

/-- The head-if-truthy expression (xs[0] ? [xs[0]] : []) of buildAnchors. -/
def headTruthy (l : List JsStr) : List JsStr :=
  match l with
  | [] => []
  | x :: _ => if x = [] then [] else [x]

/-- buildAnchors of the first generateImage route (src/unnamed/part_002 lines
67-82): must_keep, then the first 5 objects, then a truthy first vibe and
first person, through uniq, truncated to 10. -/
def buildAnchors (d : ParentDescriptor) : List JsStr :=
  (uniq ((d.must_keep.getD []) ++ (d.objects.getD []).take 5 ++
    headTruthy (d.vibe.getD []) ++ headTruthy (d.people.getD []))).take 10

/-- buildAnchors of the second (legacy) generateImage route (src/unnamed/
part_002 lines 509-521): the same concatenation through the legacy uniq. -/
def buildAnchors2 (d : ParentDescriptor) : List JsStr :=
  (uniq2 ((d.must_keep.getD []) ++ (d.objects.getD []).take 5 ++
    headTruthy (d.vibe.getD []) ++ headTruthy (d.people.getD []))).take 10

/-- The Math.max(0, Math.min(1, remixStrength)) clamp of both routes. -/
def clamp01 (s : ℚ) : ℚ := max 0 (min 1 s)

/-- The remixLine of the first generateImage route (src/unnamed/part_002
lines 329-334): tier boundaries 0.8 and 0.5. -/
def remixLine (strength : ℚ) : JsStr :=
  if strength ≥ 0.8 then
    S "Highly remixed reinterpretation with bold recomposition and surprising fusions."
  else if strength ≥ 0.5 then
    S "Creative remix reinterpretation; allow recomposition, scale shifts, and fused elements."
  else
    S "Light remix; small but noticeable rearrangements and stylized integrations."

/-- The remixLine of the second (legacy) generateImage route (src/unnamed/
part_002 lines 682-687): tier boundaries 0.85 and 0.55. -/
def remixLine2 (strength : ℚ) : JsStr :=
  if strength ≥ 0.85 then
    S "Highly remixed reinterpretation, bold recomposition, surprising fusions."
  else if strength ≥ 0.55 then
    S "Creative remix reinterpretation, allow recomposition and scale shifts."
  else
    S "Light remix, subtle rearrangements and stylized integrations."

/-- Property access plan.k as JavaScript evaluates it on a JSON.parse result:
throws on null, reads the field of an object (last duplicate key wins),
yields undefined on the other primitives and on arrays (none of the keys the
routes access is a built-in property). -/
def planGetE (plan : JsonV) (k : JsStr) : Except Unit (Option JsonV) :=
  match plan with
  | .null => .error ()
  | .obj fs => .ok (lookupLast fs k)
  | _ => .ok none

/-- Template-literal display of a possibly-undefined property value. -/
def dispOpt (o : Option JsonV) : JsStr :=
  match o with
  | none => S "undefined"
  | some v => jsDisplay v

/-- Truthiness of a possibly-undefined property value. -/
def truthyO (o : Option JsonV) : Bool :=
  match o with
  | none => false
  | some v => jsTruthyJ v

/-- The conditional remix-directive clause (plan.remix_directive ?
plan.remix_directive : ""): the raw value when truthy, the empty string
otherwise, later displayed by Array.prototype.join. -/
def rdPart (o : Option JsonV) : JsonV :=
  match o with
  | some w => if jsTruthyJ w then w else .str []
  | none => .str []

/-- The s.trim() method call of the first route's uniq on an element of a
parsed JSON array: defined on strings only, a thrown TypeError otherwise. -/
def trimMethodJ : JsonV → Except Unit JsStr
  | .str s => .ok (trim s)
  | _ => .error ()

/-- The first route's uniq applied to a parsed JSON array (map trim first, so
any non-string element throws; then drop empties and deduplicate). -/
def uniqJ (es : List JsonV) : Except Unit (List JsStr) :=
  (es.mapM trimMethodJ).map
    (fun ts => dedupBy (fun s => s) (ts.filter (· ≠ [])))

/-- The legacy route's uniq applied to a parsed JSON array (filter truthy
first, then String(s).trim(), total on every element). -/
def uniq2J (es : List JsonV) : List JsStr :=
  dedupBy (fun s => s) ((es.filter jsTruthyJ).map (fun v => trim (jsDisplay v)))

/-- uniq(plan.must_include) in the first route: only an array of strings
survives; undefined, null or a non-array value throws (undefined.map is not
a function), as does a non-string element under .trim(). -/
def mustIncl1 (miO : Option JsonV) : Except Unit (List JsStr) :=
  match miO with
  | some (.arr es) => uniqJ es
  | _ => .error ()

/-- uniq(plan.must_include || []) in the legacy route: falsy values fall back
to the empty array, a truthy non-array still throws inside uniq. -/
def mustIncl2 (miO : Option JsonV) : Except Unit (List JsStr) :=
  let v : JsonV :=
    match miO with
    | none => .arr []
    | some w => if jsTruthyJ w then w else .arr []
  match v with
  | .arr es => .ok (uniq2J es)
  | _ => .error ()

/-- The avoid clause of the first route: plan.avoid?.length gates the clause
(undefined and null skip it, an empty array or string skips it, a number or
boolean has no length); a truthy length runs uniq(plan.avoid), which throws
unless avoid is an array of strings. -/
def avoidClause1 (avO : Option JsonV) : Except Unit JsStr :=
  match avO with
  | none => .ok []
  | some .null => .ok []
  | some (.arr es) =>
    if es.length = 0 then .ok []
    else (uniqJ es).map (fun l => S "Avoid: " ++ joinCS l ++ S ".")
  | some (.str s) => if s.length = 0 then .ok [] else .error ()
  | some (.num _) => .ok []
  | some (.bool _) => .ok []
  | some (.obj fs) =>
    match lookupLast fs (S "length") with
    | some w => if jsTruthyJ w then .error () else .ok []
    | none => .ok []

/-- The avoid clause of the legacy route, with that route's total-on-arrays
uniq. -/
def avoidClause2 (avO : Option JsonV) : Except Unit JsStr :=
  match avO with
  | none => .ok []
  | some .null => .ok []
  | some (.arr es) =>
    if es.length = 0 then .ok []
    else .ok (S "Avoid: " ++ joinCS (uniq2J es) ++ S ".")
  | some (.str s) => if s.length = 0 then .ok [] else .error ()
  | some (.num _) => .ok []
  | some (.bool _) => .ok []
  | some (.obj fs) =>
    match lookupLast fs (S "length") with
    | some w => if jsTruthyJ w then .error () else .ok []
    | none => .ok []

/-- The finalPrompt template of the first generateImage route (src/unnamed/
part_002 lines 336-357): the fixed clause order, empty clauses dropped by
filter(Boolean), flattened with single spaces. -/
def finalPrompt1 (plan : JsonV) (strength : ℚ) : Except Unit JsStr := do
  let scene ← planGetE plan (S "scene")
  let subj ← planGetE plan (S "subject")
  let sett ← planGetE plan (S "setting")
  let rd ← planGetE plan (S "remix_directive")
  let comp ← planGetE plan (S "composition")
  let med ← planGetE plan (S "medium")
  let rea ← planGetE plan (S "realism")
  let lig ← planGetE plan (S "lighting")
  let pal ← planGetE plan (S "palette")
  let sn ← planGetE plan (S "style_notes")
  let mi ← planGetE plan (S "must_include")
  let av ← planGetE plan (S "avoid")
  let miList ← mustIncl1 mi
  let avClause ← avoidClause1 av
  let parts : List JsonV :=
    [.str (dispOpt scene ++ S ". " ++ dispOpt subj ++ S ". " ++ dispOpt sett ++ S "."),
     .str (remixLine strength),
     rdPart rd,
     .str (S "Composition: " ++ dispOpt comp ++ S "."),
     .str (S "Medium: " ++ dispOpt med ++ S ", realism: " ++ dispOpt rea ++ S "."),
     .str (S "Lighting: " ++ dispOpt lig ++ S ". Palette: " ++ dispOpt pal ++ S "."),
     .str (if truthyO sn then S "Style: " ++ dispOpt sn ++ S "." else []),
     .str (S "Must include (integrated naturally): " ++ joinCS miList ++ S "."),
     .str avClause,
     .str (S "No text, no watermark, no UI, no logos, no signatures."),
     .str (S "Square image.")]
  pure (joinSpace ((parts.filter jsTruthyJ).map jsDisplay))

/-- The finalPrompt template of the second (legacy) generateImage route
(src/unnamed/part_002 lines 689-702). -/
def finalPrompt2 (plan : JsonV) (strength : ℚ) : Except Unit JsStr := do
  let scene ← planGetE plan (S "scene")
  let subj ← planGetE plan (S "subject")
  let sett ← planGetE plan (S "setting")
  let rd ← planGetE plan (S "remix_directive")
  let comp ← planGetE plan (S "composition")
  let med ← planGetE plan (S "medium")
  let rea ← planGetE plan (S "realism")
  let lig ← planGetE plan (S "lighting")
  let pal ← planGetE plan (S "palette")
  let sn ← planGetE plan (S "style_notes")
  let mi ← planGetE plan (S "must_include")
  let av ← planGetE plan (S "avoid")
  let miList ← mustIncl2 mi
  let avClause ← avoidClause2 av
  let parts : List JsonV :=
    [.str (dispOpt scene ++ S ". " ++ dispOpt subj ++ S ". " ++ dispOpt sett ++ S "."),
     .str (remixLine2 strength),
     rdPart rd,
     .str (S "Composition: " ++ dispOpt comp ++ S "."),
     .str (S "Medium: " ++ dispOpt med ++ S ", realism: " ++ dispOpt rea ++ S "."),
     .str (S "Lighting: " ++ dispOpt lig ++ S ". Palette: " ++ dispOpt pal ++ S "."),
     .str (if truthyO sn then S "Style: " ++ dispOpt sn ++ S "." else []),
     .str (S "Must include: " ++ joinCS miList ++ S "."),
     .str avClause,
     .str (S "Square image. No text, no watermark, no UI, no logos, no signatures.")]
  pure (joinSpace ((parts.filter jsTruthyJ).map jsDisplay))

/-- The string-typed required keys of the RemixPlan schema declared in both
generateImage routes. -/
def remixPlanStringKeys : List JsStr :=
  [S "scene", S "subject", S "setting", S "composition", S "medium",
   S "realism", S "lighting", S "palette", S "style_notes", S "remix_directive"]

/-- All required keys of the RemixPlan schema. -/
def remixPlanKeys : List JsStr :=
  remixPlanStringKeys ++ [S "must_include", S "avoid"]

/-- Whether a JSON value is a string. -/
def isStrJ : JsonV → Bool
  | .str _ => true
  | _ => false

/-- The RemixPlan schema declared (identically) in both generateImage routes
(src/unnamed/part_002 lines 206-252 and 597-642), as a local checker: an
object with no additional properties, all twelve required fields present,
the ten scalar fields strings, must_include an array of 4 to 16 strings and
avoid an array of at most 14 strings.  The source declares this schema to
the provider but never checks the returned plan against it; this definition
exists to state that. -/
def schemaRemixPlanOk (v : JsonV) : Bool :=
  match v with
  | .obj fs =>
    fs.all (fun kv => decide (kv.1 ∈ remixPlanKeys)) &&
    remixPlanStringKeys.all (fun k =>
      match lookupLast fs k with
      | some w => isStrJ w
      | none => false) &&
    (match lookupLast fs (S "must_include") with
     | some (.arr es) => es.all isStrJ && decide (4 ≤ es.length) && decide (es.length ≤ 16)
     | _ => false) &&
    (match lookupLast fs (S "avoid") with
     | some (.arr es) => es.all isStrJ && decide (es.length ≤ 14)
     | _ => false)
  | _ => false

/-- One entry of the first route's parentSummaries (src/unnamed/part_002
lines 179-201). -/
structure Summary1 where
  index : Nat
  url : JsStr
  subject : JsStr
  setting : JsStr
  medium : JsStr
  realism : JsStr
  lighting : JsStr
  palette : JsStr
  composition : JsStr
  vibe : List JsStr
  people : List JsStr
  objects : List JsStr
  trend : JsStr
  feeling : JsStr
  style : JsStr
  anchors : List JsStr
deriving DecidableEq, Repr

/-- The first route's summary of the i-th (0-based) considered parent. -/
def mkSummary1 (i : Nat) (p : RemixParent) : Summary1 :=
  let d := p.descriptor.getD emptyDescriptor
  ⟨i + 1, p.url, d.subject.getD [], d.setting.getD [], d.medium.getD [],
   d.realism.getD [], d.lighting.getD [], d.palette.getD [],
   d.composition.getD [], d.vibe.getD [], d.people.getD [],
   d.objects.getD [], d.trend.getD [], d.feeling.getD [], d.style.getD [],
   buildAnchors d⟩

/-- parentSummaries of the first generateImage route: the first 16 parents
(parents.slice(0, 16)), summarised in order. -/
def parentSummaries1 (parents : List RemixParent) : List Summary1 :=
  (parents.take 16).mapIdx mkSummary1

/-- One entry of the legacy route's parentSummaries (src/unnamed/part_002
lines 577-594). -/
structure Summary2 where
  index : Nat
  description : JsStr
  subject : JsStr
  setting : JsStr
  style : JsStr
  medium : JsStr
  realism : JsStr
  lighting : JsStr
  palette : JsStr
  composition : JsStr
  trend : JsStr
  feeling : JsStr
  anchors : List JsStr
deriving DecidableEq, Repr

/-- The legacy route's summary of the i-th (0-based) considered parent; its
anchors come from that route's own buildAnchors. -/
def mkSummary2 (i : Nat) (p : RemixParent) : Summary2 :=
  let d := p.descriptor.getD emptyDescriptor
  ⟨i + 1, d.description.getD [], d.subject.getD [], d.setting.getD [],
   d.style.getD [], d.medium.getD [], d.realism.getD [], d.lighting.getD [],
   d.palette.getD [], d.composition.getD [], d.trend.getD [],
   d.feeling.getD [], buildAnchors2 d⟩

/-- parentSummaries of the legacy generateImage route: the first 10 parents
(normalizedParents.slice(0, 10)), summarised in order. -/
def parentSummaries2 (parents : List RemixParent) : List Summary2 :=
  (parents.take 10).mapIdx mkSummary2

/-- An external call a generateImage handler can attempt. -/
inductive ExtCall where
  | fetchImage (url : JsStr)
  | llmPlan
  | imagesEdit
  | imagesGenerate
  | cloudinaryUpload
deriving DecidableEq, Repr

/-- The externally observable response of a generateImage handler: the
client-error rejection, a server error with its envelope message, or the
success payload (restricted to the remixed prompt and plan, the fields the
verified properties speak about). -/
inductive Resp where
  | reject400 (msg : JsStr)
  | err500 (msg : JsStr)
  | ok200 (remixedPrompt : JsStr) (plan : JsonV)

/-- Whether a response is the 400-status client rejection. -/
def Resp.isReject : Resp → Bool
  | .reject400 _ => true
  | _ => false

/-- Whether a response is the 200-status success payload. -/
def Resp.isOk : Resp → Bool
  | .ok200 _ _ => true
  | _ => false

/-- The plan carried by a success response. -/
def Resp.planOf : Resp → Option JsonV
  | .ok200 _ p => some p
  | _ => none

/-- Results the first route's external collaborators return: image download
per URL, the structured-output chat completion content, the image-edit call
(some base64 payload or none), and the Cloudinary upload. An error value is
a thrown/rejected call. -/
structure Oracle1 where
  fetchImage : JsStr → Except Unit Unit
  llm : Except Unit (Option JsStr)
  imagesEdit : Except Unit (Option JsStr)
  upload : Except Unit JsStr

/-- Results the legacy route's external collaborators return. -/
structure Oracle2 where
  llm : Except Unit (Option JsStr)
  imagesGenerate : Except Unit (Option JsStr)

/-- The request-body fields of the first generateImage POST that decide its
control flow; the remaining fields (adjectives, communities, trends,
extraPrompt, size, anchorPerParent) only shape the text sent to the external
calls. -/
structure Route1Body where
  parents : List RemixParent
  remixStrength : ℚ

/-- The request-body fields of the legacy generateImage POST that decide its
control flow, including the legacy-compatibility descriptions and parentIds
fields. -/
structure Route2Body where
  parents : List RemixParent
  descriptions : List JsStr
  parentIds : List JsStr
  remixStrength : ℚ

/-- The Promise.all of urlToFile downloads over the considered parents,
collapsed to its success or first failure. -/
def fetchAll (o : Oracle1) : List RemixParent → Except Unit Unit
  | [] => .ok ()
  | p :: ps =>
    match o.fetchImage p.url with
    | .error e => .error e
    | .ok _ => fetchAll o ps

/-- The first generateImage POST handler (src/unnamed/part_002 lines
136-418) as a function from body and oracle to response and the trace of
external calls attempted, in order: the under-2-parents rejection is issued
before any external call; then the first 16 parents are downloaded, the
plan requested, parsed and rendered, the image edit requested, and the
result uploaded; any throw is caught into the generic 500 envelope. -/
def route1 (b : Route1Body) (o : Oracle1) : Resp × List ExtCall :=
  if b.parents.length < 2 then
    (.reject400 (S "Provide at least 2 parents."), [])
  else
    let strength := clamp01 b.remixStrength
    let considered := b.parents.take 16
    let fetches := considered.map (fun p => ExtCall.fetchImage p.url)
    match fetchAll o considered with
    | .error _ => (.err500 (S "Failed to remix images"), fetches)
    | .ok _ =>
      let t1 := fetches ++ [ExtCall.llmPlan]
      match o.llm with
      | .error _ => (.err500 (S "Failed to remix images"), t1)
      | .ok content =>
        match jsonParse (content.getD (S "{}")) with
        | none => (.err500 (S "Failed to remix images"), t1)
        | some plan =>
          match finalPrompt1 plan strength with
          | .error _ => (.err500 (S "Failed to remix images"), t1)
          | .ok fp =>
            let t2 := t1 ++ [ExtCall.imagesEdit]
            match o.imagesEdit with
            | .error _ => (.err500 (S "Failed to remix images"), t2)
            | .ok none => (.err500 (S "No image returned."), t2)
            | .ok (some _) =>
              let t3 := t2 ++ [ExtCall.cloudinaryUpload]
              match o.upload with
              | .error _ => (.err500 (S "Failed to remix images"), t3)
              | .ok _ => (.ok200 fp plan, t3)

/-- The legacy route's parent normalization (src/unnamed/part_002 lines
561-567): when fewer than 2 parents arrive, fabricate one parent per entry
of descriptions, with the URL taken from parentIds at the same index (empty
when missing) and a descriptor holding only that description. -/
def normalizedParents (parents : List RemixParent)
    (descriptions parentIds : List JsStr) : List RemixParent :=
  if parents.length ≥ 2 then parents
  else descriptions.mapIdx (fun i d => ⟨(parentIds.get? i).getD [], some (descOnly d)⟩)

/-- The legacy generateImage POST handler (src/unnamed/part_002 lines
523-725): the under-2 check runs on the normalized parents list; the route
downloads no parent images, and a missing generated-image URL still answers
200 (with a null imageUrl), so the trace ends after the two external
calls. -/
def route2 (b : Route2Body) (o : Oracle2) : Resp × List ExtCall :=
  let strength := clamp01 b.remixStrength
  let np := normalizedParents b.parents b.descriptions b.parentIds
  if np.length < 2 then
    (.reject400 (S "Provide at least 2 parents."), [])
  else
    match o.llm with
    | .error _ => (.err500 (S "Failed to generate content"), [ExtCall.llmPlan])
    | .ok content =>
      match jsonParse (content.getD (S "{}")) with
      | none => (.err500 (S "Failed to generate content"), [ExtCall.llmPlan])
      | some plan =>
        match finalPrompt2 plan strength with
        | .error _ => (.err500 (S "Failed to generate content"), [ExtCall.llmPlan])
        | .ok fp =>
          match o.imagesGenerate with
          | .error _ =>
            (.err500 (S "Failed to generate content"), [ExtCall.llmPlan, ExtCall.imagesGenerate])
          | .ok _ => (.ok200 fp plan, [ExtCall.llmPlan, ExtCall.imagesGenerate])

/-- The Anchor Extractor as the claim words it: all of mustKeep in order,
then up to the first 5 objects, then the first vibe and people entries,
deduplicated case-sensitively by trimmed value in first-seen order and
truncated to 10.  Stated from the specification for comparison with the
buildAnchors functions translated from the source. -/
def specAnchors (d : ParentDescriptor) : List JsStr :=
  (dedupBy (fun s => s)
    ((((d.must_keep.getD []) ++ (d.objects.getD []).take 5 ++
       (d.vibe.getD []).take 1 ++ (d.people.getD []).take 1).map trim).filter
      (· ≠ []))).take 10

/-- The Tag Merger as the claim words it: concatenate the lists in argument
order, trim, drop empties, deduplicate by lower-cased value keeping the
first-seen original-cased form, truncate to the cap.  Stated from the
specification for comparison with mergeTags translated from the source. -/
def specMergeTags (lists : List (List JsStr)) (cap : Nat) : List JsStr :=
  (dedupBy toLowerStr ((lists.flatten.map trim).filter (· ≠ []))).take cap

theorem toLowerStr_eq_nil {s : JsStr} : toLowerStr s = [] ↔ s = [] := by
  simp [toLowerStr]

theorem dedupLowerAux_eq (l : List JsStr) : ∀ seen : List JsStr,
    dedupLowerAux seen l = dedupByAux toLowerStr seen ((l.map trim).filter (· ≠ [])) := by
  induction l with
  | nil => intro seen; rfl
  | cons t ts ih =>
    intro seen
    simp only [dedupLowerAux, List.map_cons, List.filter_cons]
    by_cases h : trim t = []
    · have h2 : toLowerStr (trim t) = [] := toLowerStr_eq_nil.mpr h
      have h3 : ¬ (decide (trim t ≠ []) = true) := by simp [h]
      rw [if_pos h2, if_neg h3]
      exact ih seen
    · have h2 : ¬ toLowerStr (trim t) = [] := fun hc => h (toLowerStr_eq_nil.mp hc)
      have h3 : decide (trim t ≠ []) = true := by simp [h]
      rw [if_neg h2, if_pos h3]
      by_cases hs : toLowerStr (trim t) ∈ seen
      · rw [if_pos hs]
        simp only [dedupByAux]
        rw [if_pos hs]
        exact ih seen
      · rw [if_neg hs]
        simp only [dedupByAux]
        rw [if_neg hs]
        exact congrArg _ (ih _)

/-- dedupLower is exactly trim-map, empty-drop, then first-seen dedup keyed
by the lower-cased value. -/
theorem dedupLower_eq (l : List JsStr) :
    dedupLower l = dedupBy toLowerStr ((l.map trim).filter (· ≠ [])) :=
  dedupLowerAux_eq l []

/-- C8: for every list of input tag lists and cap, the Tag Merger
concatenates the lists in argument order, trims entries, drops empties,
deduplicates by lower-cased value keeping the first-seen original-cased
form, and truncates to the cap preserving order; merging
[["Cat","cat","Dog"],["dog","Bird"]] with cap 40 yields ["Cat","Dog","Bird"],
and the source's mergedTags is this merger at cap 40. -/
theorem c8_tag_merger :
    (∀ (lists : List (List JsStr)) (cap : Nat),
       mergeTags lists cap = specMergeTags lists cap ∧
       (mergeTags lists cap).length ≤ cap) ∧
    mergeTags [[S "Cat", S "cat", S "Dog"], [S "dog", S "Bird"]] 40 =
      [S "Cat", S "Dog", S "Bird"] ∧
    (∀ (aiTags aiVibe aiObjects aiMustKeep : List JsStr) (tags : JsStr),
       mergedTags aiTags aiVibe aiObjects aiMustKeep tags =
         mergeTags [aiTags, aiVibe, aiObjects, aiMustKeep,
           if tags = [] then [] else splitChar ',' tags] 40) := by
  refine ⟨fun lists cap => ⟨?_, ?_⟩, by decide, fun _ _ _ _ _ => rfl⟩
  · unfold mergeTags specMergeTags
    rw [dedupLower_eq]
  · unfold mergeTags
    simp [List.length_take]

/-- C7 counterexample: the must-include deduplication (the first route's
uniq, applied to the must-include clause of finalPrompt) keeps both casings
of the same word, while the Tag Merger's dedupLower keeps only the first, so
the two rules differ. -/
theorem c7_counterexample :
    uniq [S "Cat", S "cat"] = [S "Cat", S "cat"] ∧
    dedupLower [S "Cat", S "cat"] = [S "Cat"] ∧
    ([S "Cat", S "cat"] : List JsStr) ≠ [S "Cat"] := by decide

/-- C7 amended: the must-include deduplication trims entries, drops empties
and keeps the first occurrence, like the Tag Merger, but its seen-check
compares the exact trimmed value (case-sensitively), whereas the Tag
Merger's dedupLower compares the lower-cased trimmed value. -/
theorem c7_amended :
    ∀ l : List JsStr,
      uniq l = dedupBy (fun s => s) ((l.map trim).filter (· ≠ [])) ∧
      dedupLower l = dedupBy toLowerStr ((l.map trim).filter (· ≠ [])) :=
  fun l => ⟨rfl, dedupLower_eq l⟩

/-- C1 counterexample: in the first generateImage route the strength tiers
change at 0.5 and 0.8, not 0.55 and 0.85: at strength 0.549 that route's
remixLine is the creative-remix phrase, not the light-remix phrase, and at
0.849 it is already the highly-remixed phrase. -/
theorem c1_counterexample :
    remixLine (549/1000) =
      S "Creative remix reinterpretation; allow recomposition, scale shifts, and fused elements." ∧
    remixLine (549/1000) ≠
      S "Light remix; small but noticeable rearrangements and stylized integrations." ∧
    remixLine (849/1000) =
      S "Highly remixed reinterpretation with bold recomposition and surprising fusions." := by
  have h1 : remixLine (549/1000) =
      S "Creative remix reinterpretation; allow recomposition, scale shifts, and fused elements." := by
    unfold remixLine
    rw [if_neg (by norm_num), if_pos (by norm_num)]
  have h3 : remixLine (849/1000) =
      S "Highly remixed reinterpretation with bold recomposition and surprising fusions." := by
    unfold remixLine
    rw [if_pos (by norm_num)]
  refine ⟨h1, ?_, h3⟩
  rw [h1]
  decide

/-- C1 amended: the strength-tier boundaries 0.55 and 0.85 hold for the
legacy route's remixLine (0.549 light, 0.55 creative, 0.849 creative, 0.85
highly remixed); the first route's remixLine instead has boundaries 0.5 and
0.8 (0.499 light, 0.5 creative, 0.799 creative, 0.8 highly remixed). -/
theorem c1_amended :
    ∀ s : ℚ,
      (s < 0.55 → remixLine2 s =
        S "Light remix, subtle rearrangements and stylized integrations.") ∧
      (0.55 ≤ s → s < 0.85 → remixLine2 s =
        S "Creative remix reinterpretation, allow recomposition and scale shifts.") ∧
      (0.85 ≤ s → remixLine2 s =
        S "Highly remixed reinterpretation, bold recomposition, surprising fusions.") ∧
      (s < 0.5 → remixLine s =
        S "Light remix; small but noticeable rearrangements and stylized integrations.") ∧
      (0.5 ≤ s → s < 0.8 → remixLine s =
        S "Creative remix reinterpretation; allow recomposition, scale shifts, and fused elements.") ∧
      (0.8 ≤ s → remixLine s =
        S "Highly remixed reinterpretation with bold recomposition and surprising fusions.") := by
  intro s
  unfold remixLine remixLine2
  refine ⟨fun h => ?_, fun h h2 => ?_, fun h => ?_, fun h => ?_, fun h h2 => ?_, fun h => ?_⟩
  · rw [if_neg (by intro hc; exact absurd h (by push_neg; linarith)),
      if_neg (by intro hc; exact absurd h (by push_neg; linarith))]
  · rw [if_neg (by intro hc; exact absurd h2 (by push_neg; linarith)), if_pos (by linarith)]
  · rw [if_pos (by linarith)]
  · rw [if_neg (by intro hc; exact absurd h (by push_neg; linarith)),
      if_neg (by intro hc; exact absurd h (by push_neg; linarith))]
  · rw [if_neg (by intro hc; exact absurd h2 (by push_neg; linarith)), if_pos (by linarith)]
  · rw [if_pos (by linarith)]

/-- C1 witness: the amended tier characterization applied at strength 0.7 of
the legacy route. -/
theorem c1_witness :
    ((0.55 : ℚ) ≤ 0.7 ∧ (0.7 : ℚ) < 0.85) ∧
    remixLine2 0.7 =
      S "Creative remix reinterpretation, allow recomposition and scale shifts." :=
  ⟨⟨by norm_num, by norm_num⟩, (c1_amended 0.7).2.1 (by norm_num) (by norm_num)⟩

theorem headTruthy_pipeline (l : List JsStr) :
    ((headTruthy l).map trim).filter (· ≠ []) = ((l.take 1).map trim).filter (· ≠ []) := by
  cases l with
  | nil => rfl
  | cons x xs =>
    by_cases h : x = []
    · subst h
      simp [headTruthy, trim, trimL, trimR]
    · simp [headTruthy, h]

theorem headTruthy_subset (l : List JsStr) : headTruthy l ⊆ l := by
  cases l with
  | nil => simp [headTruthy]
  | cons x xs =>
    simp only [headTruthy]
    by_cases h : x = []
    · rw [if_pos h]; intro e he; cases he
    · rw [if_neg h]; intro e he
      simp only [List.mem_singleton] at he
      simp [he]

theorem filter_map_trim_comm (l : List JsStr) (h : ∀ e ∈ l, trim e = e) :
    (l.filter (· ≠ [])).map trim = (l.map trim).filter (· ≠ []) := by
  induction l with
  | nil => rfl
  | cons x xs ih =>
    have hx : trim x = x := h x (by simp)
    have hxs : ∀ e ∈ xs, trim e = e := fun e he => h e (by simp [he])
    simp only [List.filter_cons, List.map_cons, hx]
    by_cases hx0 : x = []
    · have hc : ¬ (decide (x ≠ []) = true) := by simp [hx0]
      rw [if_neg hc, if_neg hc]
      exact ih hxs
    · have hc : decide (x ≠ []) = true := by simp [hx0]
      rw [if_pos hc, if_pos hc, List.map_cons, hx]
      exact congrArg _ (ih hxs)

/-- uniq and the legacy uniq2 agree on lists of already-trimmed entries. -/
theorem uniq2_eq_uniq (l : List JsStr) (h : ∀ e ∈ l, trim e = e) :
    uniq2 l = uniq l := by
  unfold uniq uniq2 dedupBy
  rw [filter_map_trim_comm l h]

theorem buildAnchors_eq_spec (d : ParentDescriptor) : buildAnchors d = specAnchors d := by
  unfold buildAnchors specAnchors uniq dedupBy
  congr 2
  simp only [List.map_append, List.filter_append]
  rw [headTruthy_pipeline, headTruthy_pipeline]

/-- The example descriptor of the claim: mustKeep ["lamp"], six objects, one
vibe, no people, every other field absent. -/
def exampleDescriptor : ParentDescriptor :=
  ⟨none, none, none, none, none, none, none, none, none, none,
   some [S "moody"], some [S "a", S "b", S "c", S "d", S "e", S "f"],
   some [], none, none, some [S "lamp"]⟩

/-- C2: the Anchor Extractor returns mustKeep in order, then up to the first
5 objects, then the first vibe and first people entries, deduplicated
case-sensitively by trimmed value in first-seen order and truncated to 10
entries: the first route's buildAnchors is exactly that recipe, the legacy
route's buildAnchors2 agrees on descriptors whose list entries are trimmed
(as the ImageDescriptor invariant guarantees), both are bounded by 10, and
the claim's example yields ["lamp","a","b","c","d","e","moody"]. -/
theorem c2_anchor_extractor :
    (∀ d : ParentDescriptor, buildAnchors d = specAnchors d) ∧
    (∀ d : ParentDescriptor,
      (∀ e ∈ (d.must_keep.getD []) ++ (d.objects.getD []) ++
              (d.vibe.getD []) ++ (d.people.getD []), trim e = e) →
      buildAnchors2 d = specAnchors d) ∧
    (∀ d : ParentDescriptor,
      (buildAnchors d).length ≤ 10 ∧ (buildAnchors2 d).length ≤ 10) ∧
    buildAnchors exampleDescriptor =
      [S "lamp", S "a", S "b", S "c", S "d", S "e", S "moody"] ∧
    buildAnchors2 exampleDescriptor =
      [S "lamp", S "a", S "b", S "c", S "d", S "e", S "moody"] := by
  have h2 : ∀ d : ParentDescriptor,
      (∀ e ∈ (d.must_keep.getD []) ++ (d.objects.getD []) ++
              (d.vibe.getD []) ++ (d.people.getD []), trim e = e) →
      buildAnchors2 d = specAnchors d := by
    intro d h
    have harg : ∀ e ∈ (d.must_keep.getD []) ++ (d.objects.getD []).take 5 ++
        headTruthy (d.vibe.getD []) ++ headTruthy (d.people.getD []), trim e = e := by
      intro e he
      apply h
      simp only [List.mem_append] at he ⊢
      rcases he with ((hm | ho) | hv) | hp
      · exact Or.inl (Or.inl (Or.inl hm))
      · exact Or.inl (Or.inl (Or.inr (List.take_subset 5 _ ho)))
      · exact Or.inl (Or.inr (headTruthy_subset _ hv))
      · exact Or.inr (headTruthy_subset _ hp)
    calc buildAnchors2 d
        = buildAnchors d := by
          unfold buildAnchors2 buildAnchors
          rw [uniq2_eq_uniq _ harg]
      _ = specAnchors d := buildAnchors_eq_spec d
  refine ⟨buildAnchors_eq_spec, h2, fun d => ⟨?_, ?_⟩, by decide, by decide⟩
  · simp [buildAnchors, List.length_take]
  · simp [buildAnchors2, List.length_take]

/-- C2 witness: the equality of the legacy anchors with the specified recipe
applied at the claim's example descriptor, whose entries are all trimmed. -/
theorem c2_witness :
    (∀ e ∈ (exampleDescriptor.must_keep.getD []) ++
           (exampleDescriptor.objects.getD []) ++
           (exampleDescriptor.vibe.getD []) ++
           (exampleDescriptor.people.getD []), trim e = e) ∧
    buildAnchors2 exampleDescriptor = specAnchors exampleDescriptor :=
  ⟨by decide, c2_anchor_extractor.2.1 exampleDescriptor (by decide)⟩

theorem pick_spec (obj : RawContainer) (ks : List JsStr) :
    pick obj ks = .vNull ∨
      (pick obj ks ≠ .vNull ∧ pick obj ks ≠ .vUndefined ∧
       trim (jvToString (pick obj ks)) ≠ []) := by
  induction ks with
  | nil => exact Or.inl rfl
  | cons k ks ih =>
    unfold pick
    by_cases h : lookupKey obj k ≠ .vUndefined ∧ lookupKey obj k ≠ .vNull ∧
        trim (jvToString (lookupKey obj k)) ≠ []
    · rw [if_pos h]
      exact Or.inr ⟨h.2.1, h.1, h.2.2⟩
    · rw [if_neg h]
      exact ih

/-- C3 counterexample: the Field Resolver can return a value that is not
trimmed (the stored " x " comes back with its whitespace), and can return a
stored array rather than a string; only the emptiness test is performed on
the trimmed string conversion. -/
theorem c3_counterexample :
    resolveField [[(S "a", .vStr (S " x "))]] [S "a"] = .vStr (S " x ") ∧
    trim (S " x ") ≠ S " x " ∧
    resolveField [[(S "b", .vArr [S "x"])]] [S "b"] = .vArr [S "x"] := by
  decide

/-- C3 amended: for every ordered list of containers and candidate keys, the
Field Resolver returns either absent (null) or a stored raw value that is
non-empty after string conversion and trimming; the returned value itself is
the stored one, not its trimmed form, and it may be an array. -/
theorem c3_amended :
    ∀ (cs : List RawContainer) (ks : List JsStr),
      resolveField cs ks = .vNull ∨
        (resolveField cs ks ≠ .vNull ∧ resolveField cs ks ≠ .vUndefined ∧
         trim (jvToString (resolveField cs ks)) ≠ []) := by
  intro cs ks
  induction cs with
  | nil => exact Or.inl rfl
  | cons c rest ih =>
    have hp := pick_spec c ks
    unfold resolveField
    cases hpc : pick c ks with
    | vNull => exact ih
    | vStr s =>
      rw [hpc] at hp
      rcases hp with h | h
      · exact absurd h (by simp)
      · exact Or.inr h
    | vArr xs =>
      rw [hpc] at hp
      rcases hp with h | h
      · exact absurd h (by simp)
      · exact Or.inr h
    | vUndefined =>
      rw [hpc] at hp
      rcases hp with h | h
      · exact absurd h (by simp)
      · exact absurd rfl h.2.1

/-- C9 counterexample: a legacy-route request with 12 parents has only its
first 10 summarised for plan synthesis (parentSummaries slices to 10), while
the claim requires all parents up to the 16th to be kept; the first route
does keep all 12. -/
theorem c9_counterexample :
    (parentSummaries2 (List.replicate 12 ⟨S "u", none⟩)).length = 10 ∧
    (List.replicate 12 (⟨S "u", none⟩ : RemixParent)).length = 12 ∧
    (parentSummaries1 (List.replicate 12 ⟨S "u", none⟩)).length = 12 ∧
    (parentSummaries2 (List.replicate 12 ⟨S "u", none⟩)).length ≠
      ((List.replicate 12 (⟨S "u", none⟩ : RemixParent)).take 16).length := by
  refine ⟨?_, by decide, ?_, ?_⟩ <;>
    simp [parentSummaries1, parentSummaries2]

/-- C9 amended: the first generateImage route considers the first 16 parents
of the request, in original order, for plan synthesis; the legacy route
considers only the first 10 of its normalized parents.  In both routes the
truncation is deterministic and keeps a prefix of the list. -/
theorem c9_amended :
    ∀ ps : List RemixParent,
      parentSummaries1 ps = (ps.take 16).mapIdx mkSummary1 ∧
      parentSummaries2 ps = (ps.take 10).mapIdx mkSummary2 ∧
      (parentSummaries1 ps).length = min 16 ps.length ∧
      (parentSummaries2 ps).length = min 10 ps.length := by
  intro ps
  refine ⟨rfl, rfl, ?_, ?_⟩ <;>
    simp [parentSummaries1, parentSummaries2, List.length_take]

/-- C10: in the legacy remix route, when fewer than 2 parents arrive, the
parents are fabricated one per entry of descriptions (URL from parentIds,
descriptor holding only the description); the fewer-than-2 rejection fires
exactly when this normalized list has fewer than 2 entries; and a request
with 0 parents but 2 descriptions proceeds without rejection. -/
theorem c10_normalized_parents :
    (∀ (ps : List RemixParent) (ds pids : List JsStr),
       ps.length < 2 →
         normalizedParents ps ds pids =
           ds.mapIdx (fun i d => ⟨(pids.get? i).getD [], some (descOnly d)⟩)) ∧
    (∀ (ps : List RemixParent) (ds pids : List JsStr),
       2 ≤ ps.length → normalizedParents ps ds pids = ps) ∧
    (∀ (b : Route2Body) (o : Oracle2),
       (route2 b o).1.isReject = true ↔
         (normalizedParents b.parents b.descriptions b.parentIds).length < 2) ∧
    (route2 ⟨[], [S "a", S "b"], [], 7/10⟩
        ⟨.ok (some (S "{}")), .ok none⟩).1.isReject = false := by
  refine ⟨?_, ?_, ?_, rfl⟩
  · intro ps ds pids h
    unfold normalizedParents
    rw [if_neg (by omega)]
  · intro ps ds pids h
    unfold normalizedParents
    rw [if_pos h]
  · intro b o
    unfold route2
    dsimp only
    by_cases h : (normalizedParents b.parents b.descriptions b.parentIds).length < 2
    · rw [if_pos h]
      simpa [Resp.isReject] using h
    · rw [if_neg h]
      simp only [iff_false, h]
      cases hllm : o.llm with
      | error e => simp [Resp.isReject]
      | ok content =>
        cases hjp : jsonParse (content.getD (S "{}")) with
        | none => simp [hjp, Resp.isReject]
        | some plan =>
          cases hfp : finalPrompt2 plan (clamp01 b.remixStrength) with
          | error e => simp [hjp, hfp, Resp.isReject]
          | ok fp =>
            cases hg : o.imagesGenerate with
            | error e => simp [hjp, hfp, hg, Resp.isReject]
            | ok u => simp [hjp, hfp, hg, Resp.isReject]

/-- C10 witness: the normalization equation applied at a request with no
parents, two descriptions and no parentIds. -/
theorem c10_witness :
    (([] : List RemixParent)).length < 2 ∧
    normalizedParents [] [S "a", S "b"] [] =
      [⟨[], some (descOnly (S "a"))⟩, ⟨[], some (descOnly (S "b"))⟩] := by
  refine ⟨by decide, ?_⟩
  rw [c10_normalized_parents.1 [] [S "a", S "b"] [] (by decide)]
  decide

/-- C6 counterexample: a legacy-route request whose parents list is empty but
whose descriptions field has 2 entries is not rejected, and external calls
(the plan synthesis and image generation) are attempted, contradicting the
claim that every request with fewer than 2 parents is rejected before any
external call. -/
theorem c6_counterexample :
    (([] : List RemixParent)).length < 2 ∧
    (route2 ⟨[], [S "a", S "b"], [], 7/10⟩
        ⟨.ok (some (S "{}")), .ok none⟩).1.isReject = false ∧
    (route2 ⟨[], [S "a", S "b"], [], 7/10⟩
        ⟨.ok (some (S "{}")), .ok none⟩).2 =
      [ExtCall.llmPlan, ExtCall.imagesGenerate] := by
  exact ⟨by decide, rfl, rfl⟩

/-- C6 amended: the first generateImage route rejects a request with fewer
than 2 parents with the 400 "Provide at least 2 parents." response before
attempting any external call (its trace is empty); the legacy route does the
same only when its normalized parents list (fabricated from descriptions
when fewer than 2 parents arrive) also has fewer than 2 entries. -/
theorem c6_amended :
    (∀ (b : Route1Body) (o : Oracle1),
       b.parents.length < 2 →
         route1 b o = (.reject400 (S "Provide at least 2 parents."), [])) ∧
    (∀ (b : Route2Body) (o : Oracle2),
       (normalizedParents b.parents b.descriptions b.parentIds).length < 2 →
         route2 b o = (.reject400 (S "Provide at least 2 parents."), [])) := by
  constructor
  · intro b o h
    unfold route1
    rw [if_pos h]
  · intro b o h
    unfold route2
    dsimp only
    rw [if_pos h]

/-- C6 witness: the first-route rejection applied to a one-parent request. -/
theorem c6_witness :
    ([(⟨S "u", none⟩ : RemixParent)]).length < 2 ∧
    route1 ⟨[⟨S "u", none⟩], 7/10⟩
        ⟨fun _ => .ok (), .ok none, .ok none, .ok (S "x")⟩ =
      (.reject400 (S "Provide at least 2 parents."), []) :=
  ⟨by decide, c6_amended.1 _ _ (by decide)⟩

/-- A structured-output result with every required RemixPlan field present
and typed, but must_include holding only 2 entries, below the declared
4-entry minimum. -/
def planTwoMustInclude : String :=
  "\x7b\"scene\":\"s\",\"subject\":\"t\",\"setting\":\"u\",\"composition\":\"c\",\"medium\":\"m\",\"realism\":\"r\",\"lighting\":\"l\",\"palette\":\"p\",\"style_notes\":\"n\",\"must_include\":[\"a\",\"b\"],\"avoid\":[],\"remix_directive\":\"d\"\x7d"

/-- The length of a plan's must_include array (0 when absent or not an
array), used to exhibit the out-of-bounds plan the routes accept. -/
def mustIncludeCount (v : JsonV) : Nat :=
  match v with
  | .obj fs =>
    match lookupLast fs (S "must_include") with
    | some (.arr es) => es.length
    | _ => 0
  | _ => 0

/-- C5 counterexample: when the structured-output call returns the empty
object (no required field present), the legacy route still answers 200
carrying that plan, and when it returns a plan whose must_include has only 2
entries (below the declared 4-minimum), the first route still answers 200
carrying that plan; in both runs the carried plan fails the declared schema,
so a schema-violating plan is silently accepted rather than propagated as an
error. -/
theorem c5_counterexample :
    ((route2 ⟨[⟨S "u", none⟩, ⟨S "v", none⟩], [], [], 7/10⟩
        ⟨.ok (some (S "{}")), .ok (some (S "img"))⟩).1.isOk = true) ∧
    (Option.map schemaRemixPlanOk
      ((route2 ⟨[⟨S "u", none⟩, ⟨S "v", none⟩], [], [], 7/10⟩
        ⟨.ok (some (S "{}")), .ok (some (S "img"))⟩).1.planOf) = some false) ∧
    ((route1 ⟨[⟨S "u", none⟩, ⟨S "v", none⟩], 7/10⟩
        ⟨fun _ => .ok (), .ok (some (S planTwoMustInclude)),
         .ok (some (S "b64")), .ok (S "up")⟩).1.isOk = true) ∧
    (Option.map schemaRemixPlanOk
      ((route1 ⟨[⟨S "u", none⟩, ⟨S "v", none⟩], 7/10⟩
        ⟨fun _ => .ok (), .ok (some (S planTwoMustInclude)),
         .ok (some (S "b64")), .ok (S "up")⟩).1.planOf) = some false) ∧
    (Option.map mustIncludeCount
      ((route1 ⟨[⟨S "u", none⟩, ⟨S "v", none⟩], 7/10⟩
        ⟨fun _ => .ok (), .ok (some (S planTwoMustInclude)),
         .ok (some (S "b64")), .ok (S "up")⟩).1.planOf) = some 2) := by
  exact ⟨rfl, rfl, by set_option maxRecDepth 8000 in rfl,
    by set_option maxRecDepth 8000 in rfl, by set_option maxRecDepth 8000 in rfl⟩

/-- C5 amended: neither route validates the parsed plan against the declared
RemixPlan schema: whenever the structured-output content parses as JSON and
the prompt renderer does not throw, the handler answers 200 carrying the
parsed plan unchanged, whether or not it satisfies the schema; only a JSON
parse failure (or a rendering TypeError, or a failing external call) is
propagated, as the route's generic 500 envelope. -/
theorem c5_amended :
    (∀ (b : Route2Body) (o : Oracle2) (s : JsStr) (v : JsonV) (g : Option JsStr),
       2 ≤ (normalizedParents b.parents b.descriptions b.parentIds).length →
       o.llm = .ok (some s) →
       jsonParse s = some v →
       (finalPrompt2 v (clamp01 b.remixStrength)).isOk = true →
       o.imagesGenerate = .ok g →
       (route2 b o).1.planOf = some v ∧ (route2 b o).1.isOk = true) ∧
    (∀ (b : Route1Body) (o : Oracle1) (s : JsStr) (v : JsonV)
       (b64 : JsStr) (u : JsStr),
       2 ≤ b.parents.length →
       fetchAll o (b.parents.take 16) = .ok () →
       o.llm = .ok (some s) →
       jsonParse s = some v →
       (finalPrompt1 v (clamp01 b.remixStrength)).isOk = true →
       o.imagesEdit = .ok (some b64) →
       o.upload = .ok u →
       (route1 b o).1.planOf = some v ∧ (route1 b o).1.isOk = true) := by
  constructor
  · intro b o s v g hnp hllm hjp hfp hg
    unfold route2
    dsimp only
    rw [if_neg (by omega)]
    cases hfp2 : finalPrompt2 v (clamp01 b.remixStrength) with
    | error e => rw [hfp2] at hfp; exact absurd hfp (by simp [Except.isOk, Except.toBool])
    | ok fp =>
      simp [hllm, hjp, hfp2, hg, Resp.planOf, Resp.isOk]
  · intro b o s v b64 u hp hfetch hllm hjp hfp hedit hup
    unfold route1
    rw [if_neg (by omega)]
    dsimp only
    cases hfp1 : finalPrompt1 v (clamp01 b.remixStrength) with
    | error e => rw [hfp1] at hfp; exact absurd hfp (by simp [Except.isOk, Except.toBool])
    | ok fp =>
      simp [hfetch, hllm, hjp, hfp1, hedit, hup, Resp.planOf, Resp.isOk]

/-- C5 witness: the legacy route accepting the unparsed-but-parseable empty
plan at a concrete two-parent request. -/
theorem c5_witness :
    (2 ≤ (normalizedParents [⟨S "u", none⟩, ⟨S "v", none⟩] [] []).length) ∧
    ((route2 ⟨[⟨S "u", none⟩, ⟨S "v", none⟩], [], [], 7/10⟩
        ⟨.ok (some (S "{}")), .ok (some (S "img"))⟩).1.planOf = some (.obj []) ∧
     (route2 ⟨[⟨S "u", none⟩, ⟨S "v", none⟩], [], [], 7/10⟩
        ⟨.ok (some (S "{}")), .ok (some (S "img"))⟩).1.isOk = true) :=
  ⟨by decide,
   c5_amended.1 ⟨[⟨S "u", none⟩, ⟨S "v", none⟩], [], [], 7/10⟩
     ⟨.ok (some (S "{}")), .ok (some (S "img"))⟩
     (S "{}") (.obj []) (some (S "img")) (by decide) rfl rfl rfl rfl⟩

theorem dropWhile_eq_self_of_head {p : Char → Bool} (s : JsStr)
    (h : ∀ c, s.head? = some c → p c = false) : s.dropWhile p = s := by
  cases s with
  | nil => rfl
  | cons x xs =>
    have hx : ¬ (p x = true) := by simp [h x rfl]
    rw [List.dropWhile_cons, if_neg hx]

theorem trimL_eq_self (s : JsStr)
    (h : ∀ c, s.head? = some c → isWs c = false) : trimL s = s :=
  dropWhile_eq_self_of_head s h

theorem trimR_eq_self (s : JsStr)
    (h : ∀ c, s.getLast? = some c → isWs c = false) : trimR s = s := by
  unfold trimR
  rw [dropWhile_eq_self_of_head s.reverse
    (fun c hc => h c (by rwa [List.head?_reverse] at hc)), List.reverse_reverse]

theorem trim_eq_self (s : JsStr)
    (h1 : ∀ c, s.head? = some c → isWs c = false)
    (h2 : ∀ c, s.getLast? = some c → isWs c = false) : trim s = s := by
  unfold trim
  rw [trimL_eq_self s h1, trimR_eq_self s h2]

theorem trim_head_not_ws (s : JsStr) :
    ∀ c, (trim s).head? = some c → isWs c = false := by
  intro c hc
  unfold trim at hc
  have hpre : trimR (trimL s) <+: trimL s := by
    have h2 := List.reverse_prefix.mpr (List.dropWhile_suffix (l := (trimL s).reverse) isWs)
    rwa [List.reverse_reverse] at h2
  obtain ⟨t, ht⟩ := hpre
  have hh : (trimL s).head? = some c := by
    rw [← ht, List.head?_append, hc]
    rfl
  have h3 := List.head?_dropWhile_not isWs s
  unfold trimL at hh
  rw [hh] at h3
  exact h3

theorem trim_last_not_ws (s : JsStr) :
    ∀ c, (trim s).getLast? = some c → isWs c = false := by
  intro c hc
  unfold trim trimR at hc
  rw [List.getLast?_reverse] at hc
  have h3 := List.head?_dropWhile_not isWs (trimL s).reverse
  rw [hc] at h3
  exact h3

theorem trim_trim (s : JsStr) : trim (trim s) = trim s :=
  trim_eq_self _ (trim_head_not_ws s) (trim_last_not_ws s)

theorem mem_trimFilter {l : List JsStr} {e : JsStr}
    (he : e ∈ (l.map trim).filter (· ≠ [])) : trim e = e ∧ e ≠ [] := by
  rw [List.mem_filter] at he
  obtain ⟨hm, hne⟩ := he
  rw [List.mem_map] at hm
  obtain ⟨a, _, rfl⟩ := hm
  exact ⟨trim_trim a, by simpa using hne⟩

/-- Every entry List Coercion emits is trimmed and non-empty. -/
theorem csvToArr_entries (v : JVal) : ∀ e ∈ csvToArr v, trim e = e ∧ e ≠ [] := by
  intro e he
  unfold csvToArr at he
  split at he
  · cases he
  · split at he
    · exact mem_trimFilter he
    · dsimp only at he
      split at he
      · cases he
      · split at he
        · split at he
          · exact mem_trimFilter he
          · exact mem_trimFilter he
        · exact mem_trimFilter he

theorem splitChar_ne_nil (c : Char) (s : JsStr) : splitChar c s ≠ [] := by
  cases s with
  | nil => simp [splitChar]
  | cons x xs =>
    unfold splitChar
    cases splitChar c xs with
    | nil => simp
    | cons y ys => by_cases h : x = c <;> simp [h]

theorem splitChar_single (c : Char) (e : JsStr) (h : c ∉ e) : splitChar c e = [e] := by
  induction e with
  | nil => rfl
  | cons x xs ih =>
    have hx : ¬ x = c := fun hc => h (by simp [hc])
    have hxs : c ∉ xs := fun hc => h (by simp [hc])
    unfold splitChar
    rw [ih hxs]
    simp [hx]

theorem splitChar_append (c : Char) (e t : JsStr) (h : c ∉ e) :
    splitChar c (e ++ c :: t) = e :: splitChar c t := by
  induction e with
  | nil =>
    simp only [List.nil_append]
    cases hsp : splitChar c t with
    | nil => exact absurd hsp (splitChar_ne_nil c t)
    | cons y ys =>
      conv_lhs => rw [splitChar]
      rw [hsp]
      simp
  | cons x xs ih =>
    have hx : ¬ x = c := fun hc => h (by simp [hc])
    have hxs : c ∉ xs := fun hc => h (by simp [hc])
    simp only [List.cons_append]
    conv_lhs => rw [splitChar]
    rw [ih hxs]
    simp [hx]

theorem joinComma_cons_cons (e r : JsStr) (rs : List JsStr) :
    joinComma (e :: r :: rs) = e ++ ',' :: joinComma (r :: rs) := by
  simp [joinComma, joinSep]

theorem joinComma_ne_nil (l : List JsStr) (hl : l ≠ []) (h : ∀ e ∈ l, e ≠ []) :
    joinComma l ≠ [] := by
  cases l with
  | nil => exact absurd rfl hl
  | cons e rest =>
    cases rest with
    | nil => exact h e (by simp)
    | cons r rs =>
      rw [joinComma_cons_cons]
      simp

theorem splitChar_joinComma (l : List JsStr) (hl : l ≠ [])
    (h : ∀ e ∈ l, ',' ∉ e) : splitChar ',' (joinComma l) = l := by
  induction l with
  | nil => exact absurd rfl hl
  | cons e rest ih =>
    cases rest with
    | nil => exact splitChar_single ',' e (h e (by simp))
    | cons r rs =>
      rw [joinComma_cons_cons, splitChar_append ',' e _ (h e (by simp))]
      rw [ih (by simp) (fun x hx => h x (by simp [hx]))]

theorem joinComma_head_not_ws (l : List JsStr)
    (h : ∀ e ∈ l, trim e = e ∧ e ≠ []) :
    ∀ c, (joinComma l).head? = some c → isWs c = false := by
  cases l with
  | nil => intro c hc; cases hc
  | cons e rest =>
    have he := h e (by simp)
    have hh : ∀ c, e.head? = some c → isWs c = false := by
      intro c hc
      exact trim_head_not_ws e c (by rw [he.1]; exact hc)
    cases rest with
    | nil => exact hh
    | cons r rs =>
      intro c hc
      cases e with
      | nil => exact absurd rfl he.2
      | cons x xs =>
        rw [joinComma_cons_cons, List.cons_append, List.head?_cons] at hc
        injection hc with h2
        subst h2
        exact hh x rfl

theorem joinComma_last_not_ws (l : List JsStr)
    (h : ∀ e ∈ l, trim e = e ∧ e ≠ []) :
    ∀ c, (joinComma l).getLast? = some c → isWs c = false := by
  induction l with
  | nil => intro c hc; cases hc
  | cons e rest ih =>
    have he := h e (by simp)
    have hl2 : ∀ c, e.getLast? = some c → isWs c = false := fun c hc =>
      trim_last_not_ws e c (by rw [he.1]; exact hc)
    cases rest with
    | nil => exact hl2
    | cons r rs =>
      intro c hc
      have hrest : ∀ x ∈ r :: rs, trim x = x ∧ x ≠ [] := fun x hx => h x (by simp [hx])
      rw [joinComma_cons_cons, List.getLast?_append] at hc
      cases hj : joinComma (r :: rs) with
      | nil =>
        exact absurd hj (joinComma_ne_nil _ (by simp) (fun x hx => (hrest x hx).2))
      | cons a as =>
        rw [hj, List.getLast?_cons_cons] at hc
        have hsome : (a :: as).getLast? ≠ none := by
          simp
        cases hga : (a :: as).getLast? with
        | none => exact absurd hga hsome
        | some d =>
          rw [hga, Option.or_some] at hc
          injection hc with h2
          subst h2
          apply ih hrest
          rw [hj]
          exact hga

/-- Re-coercing the comma-joined rendering of a list of trimmed, non-empty,
comma-free entries whose rendering is not bracket-delimited reproduces the
list. -/
theorem csvToArr_joinComma (l : List JsStr)
    (hent : ∀ e ∈ l, trim e = e ∧ e ≠ [])
    (hcomma : ∀ e ∈ l, ',' ∉ e)
    (hbr : bracketDelim (joinComma l) = false) :
    csvToArr (.vStr (joinComma l)) = l := by
  cases l with
  | nil => rfl
  | cons e rest =>
    have hne : joinComma (e :: rest) ≠ [] :=
      joinComma_ne_nil _ (by simp) (fun x hx => (hent x hx).2)
    have htr : trim (joinComma (e :: rest)) = joinComma (e :: rest) :=
      trim_eq_self _ (joinComma_head_not_ws _ hent) (joinComma_last_not_ws _ hent)
    have hf : ¬ (jsFalsy (JVal.vStr (joinComma (e :: rest))) = true) := by
      simpa [jsFalsy, List.isEmpty_iff] using hne
    unfold csvToArr
    rw [if_neg hf]
    dsimp only [jvToString]
    rw [htr]
    rw [if_neg hne, if_neg (by simp [hbr])]
    rw [splitChar_joinComma _ (by simp) hcomma]
    rw [List.map_congr_left (fun a ha => (hent a ha).1), List.map_id']
    rw [List.filter_eq_self.mpr (fun a ha => by simpa using (hent a ha).2)]

/-- C4 counterexample: List Coercion is not idempotent in the claimed sense:
the JSON-array input with a comma inside one entry coerces to the one-entry
sequence ["a,b"], whose comma-joined rendering "a,b" re-coerces to the
two-entry sequence ["a","b"]. -/
theorem c4_counterexample :
    csvToArr (.vStr (S "[\"a,b\"]")) = [S "a,b"] ∧
    joinComma (csvToArr (.vStr (S "[\"a,b\"]"))) = S "a,b" ∧
    csvToArr (.vStr (joinComma (csvToArr (.vStr (S "[\"a,b\"]"))))) =
      [S "a", S "b"] ∧
    ([S "a", S "b"] : List JsStr) ≠ [S "a,b"] := by
  exact ⟨by decide, by decide, by decide, by decide⟩

/-- C4 amended: coercing the comma-joined rendering of coerceList(x)
reproduces coerceList(x) whenever no emitted entry contains a comma and the
rendering is not bracket- or brace-delimited; with a comma inside an entry
(reachable only through the JSON-array branch) or a rendering that re-enters
the JSON branch, the round trip can differ. -/
theorem c4_amended :
    ∀ v : JVal,
      (∀ e ∈ csvToArr v, ',' ∉ e) →
      bracketDelim (joinComma (csvToArr v)) = false →
      csvToArr (.vStr (joinComma (csvToArr v))) = csvToArr v :=
  fun v hcomma hbr => csvToArr_joinComma (csvToArr v) (csvToArr_entries v) hcomma hbr

/-- C4 witness: the comma-and-whitespace input of the specification's own
example round-trips: "a, b, ,c" coerces to ["a","b","c"], and coercing the
rendering "a,b,c" returns the same sequence. -/
theorem c4_witness :
    csvToArr (.vStr (S "a, b, ,c")) = [S "a", S "b", S "c"] ∧
    (∀ e ∈ csvToArr (.vStr (S "a, b, ,c")), ',' ∉ e) ∧
    bracketDelim (joinComma (csvToArr (.vStr (S "a, b, ,c")))) = false ∧
    csvToArr (.vStr (joinComma (csvToArr (.vStr (S "a, b, ,c"))))) =
      csvToArr (.vStr (S "a, b, ,c")) :=
  ⟨by decide, by decide, by decide,
   c4_amended (.vStr (S "a, b, ,c")) (by decide) (by decide)⟩
